import Mathlib

/-!
# Bookstore backend: shallow embedding and verification

This file embeds the service layer of the `bookstore` backend (a TypeScript/
Prisma e-commerce API) in Lean 4 and proves properties of the embedded
operations.  Database tables are association lists keyed by ids; Prisma's
`uuidv4()` calls are modelled by a fresh-id counter threaded through the
state; a Prisma `$transaction` whose callback throws is modelled by the
operation returning `Except.error` and the caller keeping the pre-call state.
Decimal prices and quantities are modelled as `Int`.
-/

set_option linter.unusedVariables false

namespace Bookstore

/-! ## Association-list tables -/

/-- First-match lookup in an association list (Prisma `findUnique`). -/
def alookup {α β : Type} [DecidableEq α] : List (α × β) → α → Option β
  | [], _ => none
  | (k, v) :: rest, id => if k = id then some v else alookup rest id

/-- Replace the value at the first occurrence of a key (Prisma `update`);
leaves the table unchanged when the key is absent. -/
def aupdate {α β : Type} [DecidableEq α] : List (α × β) → α → β → List (α × β)
  | [], _, _ => []
  | (k, v) :: rest, id, nv =>
    if k = id then (k, nv) :: rest else (k, v) :: aupdate rest id nv

/-! ## Data model (Prisma schema rows used by the services) -/

/-- A row of the `Book` table (fields the services read or write). -/
structure Book where
  price : Int
  stockQuantity : Int
  soldNumber : Int
  deriving Repr, DecidableEq

/-- A row of the `Address` table. -/
structure Address where
  addressID : Nat
  specificAddress : Option String
  ward : String
  city : String
  deriving Repr, DecidableEq

/-- `Order.status` values. -/
inductive OrderStatus where
  | pending | processing | completed | canceled
  deriving Repr, DecidableEq

/-- A row of the `OrderBook` (order line item) table. -/
structure OrderLineItem where
  bookID : Nat
  priceAtTime : Int
  quantity : Int
  subTotal : Int
  deriving Repr, DecidableEq

/-- A row of the `Order` table, with its owned line items inlined. -/
structure Order where
  userID : Nat
  status : OrderStatus
  totalAmount : Int
  addressSnapshot : String
  phoneSnapshot : String
  books : List OrderLineItem
  deriving Repr, DecidableEq

/-- `Payment.status` values. -/
inductive PaymentStatus where
  | processing | paid | failed
  deriving Repr, DecidableEq

/-- A row of the `Payment` table.  `paidAt` is a timestamp (`none` = NULL). -/
structure Payment where
  orderID : Nat
  status : PaymentStatus
  method : String
  amount : Int
  paidAt : Option Nat
  deriving Repr, DecidableEq

/-- The database state seen by the order, payment and book services.
`users` maps a userID to the user's owned addresses; `nextID` models the
stream of fresh `uuidv4()` values; `now` is the current clock reading. -/
structure DB where
  users : List (Nat × List Address)
  books : List (Nat × Book)
  orders : List (Nat × Order)
  payments : List (Nat × Payment)
  nextID : Nat
  now : Nat
  deriving Repr, DecidableEq

/-! ## orderService.createOrder -/

/-- One element of `OrderCreateInput.items`. -/
structure OrderItemInput where
  bookID : Nat
  quantity : Int
  deriving Repr, DecidableEq

/-- `OrderCreateInput` as consumed by `orderService.createOrder`. -/
structure OrderCreateInput where
  userID : Nat
  addressID : Nat
  phone : String
  items : List OrderItemInput
  deriving Repr, DecidableEq

/-- The distinct `throw` sites of `orderService.createOrder`. -/
inductive OrderError where
  | userNotFound
  | addressNotFound
  | emptyItems
  | bookNotFound (bookID : Nat)
  | insufficientStock (bookID : Nat)
  | invalidQuantity (bookID : Nat)
  deriving Repr, DecidableEq

/-- `user.addresses.find(addr => addr.addressID === addressID)`. -/
def findAddress : List Address → Nat → Option Address
  | [], _ => none
  | a :: rest, id => if a.addressID = id then some a else findAddress rest id

/-- The address-snapshot string built by `createOrder`:
`` `${specificAddress ? specificAddress + ", " : ""}${ward}, ${city}` ``. -/
def formatAddressSnapshot (a : Address) : String :=
  (match a.specificAddress with
   | some sa => sa ++ ", "
   | none => "") ++ a.ward ++ ", " ++ a.city

/-- The `for (const item of items)` loop of `createOrder`, threading the
transaction state: per item it loads the book, rejects a missing book, a
quantity above the current stock, and a non-positive quantity (in that
order, as in the source), then decrements stock, increments the sold count
and accumulates the subtotal and the pending `orderBooks` entry. -/
def processItems : DB → List OrderItemInput → Except OrderError (DB × Int × List OrderLineItem)
  | s, [] => .ok (s, 0, [])
  | s, item :: rest =>
    match alookup s.books item.bookID with
    | none => .error (.bookNotFound item.bookID)
    | some book =>
      if book.stockQuantity < item.quantity then
        .error (.insufficientStock item.bookID)
      else if item.quantity ≤ 0 then
        .error (.invalidQuantity item.bookID)
      else
        let subTotal := book.price * item.quantity
        let li : OrderLineItem :=
          { bookID := item.bookID, priceAtTime := book.price,
            quantity := item.quantity, subTotal := subTotal }
        let book' : Book :=
          { book with stockQuantity := book.stockQuantity - item.quantity,
                      soldNumber := book.soldNumber + item.quantity }
        let s' : DB := { s with books := aupdate s.books item.bookID book' }
        match processItems s' rest with
        | .error e => .error e
        | .ok (s'', total, lis) => .ok (s'', subTotal + total, li :: lis)

/-- `orderService.createOrder`: resolves the user and the address, rejects an
empty item list, runs the item loop, then inserts the `Order` row (fresh id,
status `pending`, the accumulated total, both snapshots and the line items).
The whole body runs inside one `$transaction`, so an error leaves no trace. -/
def createOrder (s : DB) (inp : OrderCreateInput) : Except OrderError (DB × Nat) :=
  match alookup s.users inp.userID with
  | none => .error .userNotFound
  | some addresses =>
    match findAddress addresses inp.addressID with
    | none => .error .addressNotFound
    | some address =>
      let addressSnapshot := formatAddressSnapshot address
      if inp.items.isEmpty then .error .emptyItems
      else
        match processItems s inp.items with
        | .error e => .error e
        | .ok (s', totalAmount, lis) =>
          let oid := s'.nextID
          let order : Order :=
            { userID := inp.userID, status := .pending, totalAmount := totalAmount,
              addressSnapshot := addressSnapshot, phoneSnapshot := inp.phone,
              books := lis }
          .ok ({ s' with orders := (oid, order) :: s'.orders, nextID := s'.nextID + 1 }, oid)

/-! ## orderService.cancelOrder -/

/-- The `throw` sites of `orderService.cancelOrder`.  `bookMissing` is the
Prisma `P2025` error of `tx.book.update` on an absent row. -/
inductive CancelError where
  | notFound
  | invalidState
  | bookMissing (bookID : Nat)
  deriving Repr, DecidableEq

/-- The `for (const orderBook of order.books)` restore loop of `cancelOrder`:
per line item, increment the book's stock by the item quantity and decrement
its sold count by the same amount. -/
def restoreBooks : List (Nat × Book) → List OrderLineItem → Except CancelError (List (Nat × Book))
  | bs, [] => .ok bs
  | bs, li :: rest =>
    match alookup bs li.bookID with
    | none => .error (.bookMissing li.bookID)
    | some b =>
      let b' : Book :=
        { b with stockQuantity := b.stockQuantity + li.quantity,
                 soldNumber := b.soldNumber - li.quantity }
      restoreBooks (aupdate bs li.bookID b') rest

/-- `orderService.cancelOrder`: loads the order (404 when absent), rejects a
non-`pending` status, restores every line item's stock/sold count and sets the
status to `canceled`, all inside one `$transaction`. -/
def cancelOrder (s : DB) (oid : Nat) : Except CancelError DB :=
  match alookup s.orders oid with
  | none => .error .notFound
  | some order =>
    if order.status ≠ OrderStatus.pending then .error .invalidState
    else
      match restoreBooks s.books order.books with
      | .error e => .error e
      | .ok bs' =>
        .ok { s with books := bs',
                     orders := aupdate s.orders oid { order with status := .canceled } }

/-! ## Committed-operation semantics

A Prisma `$transaction` rolls back every write of its callback when the
callback throws, so a failed `createOrder`/`cancelOrder` leaves the database
exactly as it was; `orderStep` is the state transition a caller observes. -/

/-- An order-service operation. -/
inductive OrderOp where
  | create (inp : OrderCreateInput)
  | cancel (oid : Nat)
  deriving Repr, DecidableEq

/-- The committed effect of one operation: the new state on success, the old
state when the transaction aborted. -/
def orderStep (s : DB) : OrderOp → DB
  | .create inp =>
    match createOrder s inp with
    | .ok (s', _) => s'
    | .error _ => s
  | .cancel oid =>
    match cancelOrder s oid with
    | .ok s' => s'
    | .error _ => s

/-- Run a sequence of order-service operations. -/
def runOps (s : DB) (ops : List OrderOp) : DB :=
  ops.foldl orderStep s

/-- Modelled from the spec: the catalog component's book update (the
`bookService` file is not part of the provided sources; §4.2 specifies
standard update operations over `Book`).  Only the price write is needed
here: it rewrites the book's price and touches nothing else. -/
def updateBookPrice (s : DB) (bookID : Nat) (newPrice : Int) : DB :=
  match alookup s.books bookID with
  | none => s
  | some b => { s with books := aupdate s.books bookID { b with price := newPrice } }

/-! ## paymentService -/

/-- The `throw` sites of `paymentService.createPayment` and
`updatePaymentStatus`.  `orderUpdateFailed` is the Prisma `P2025` error of
`prisma.order.update` on an absent row. -/
inductive PaymentError where
  | orderNotFound
  | paymentExists
  | amountMismatch
  | paymentNotFound
  | orderUpdateFailed
  deriving Repr, DecidableEq

/-- `tx.payment.findUnique({ where: { orderID } })`: the `Payment` table has a
unique index on `orderID`; first match over the rows. -/
def findPaymentByOrder : List (Nat × Payment) → Nat → Option Payment
  | [], _ => none
  | (_, p) :: rest, oid => if p.orderID = oid then some p else findPaymentByOrder rest oid

/-- `paymentService.createPayment`: inside one `$transaction`, loads the order
(404 when absent), rejects a second payment for the same order, rejects an
amount different from the order's `totalAmount`, then inserts the `Payment`
row with a fresh id and status `processing`. -/
def createPayment (s : DB) (orderID : Nat) (method : String) (amount : Int) :
    Except PaymentError (DB × Nat) :=
  match alookup s.orders orderID with
  | none => .error .orderNotFound
  | some order =>
    match findPaymentByOrder s.payments orderID with
    | some _ => .error .paymentExists
    | none =>
      if amount ≠ order.totalAmount then .error .amountMismatch
      else
        let pid := s.nextID
        let payment : Payment :=
          { orderID := orderID, status := .processing, method := method,
            amount := amount, paidAt := none }
        .ok ({ s with payments := (pid, payment) :: s.payments, nextID := s.nextID + 1 }, pid)

/-- The committed effect of `createPayment`: a thrown error aborts the
transaction, so the caller keeps the old state. -/
def createPaymentStep (s : DB) (orderID : Nat) (method : String) (amount : Int) : DB :=
  match createPayment s orderID method amount with
  | .ok (s', _) => s'
  | .error _ => s

/-- `paymentService.updatePaymentStatus`: updates the payment's status (404
when the payment is absent), additionally stamping `paidAt` with the current
time exactly when the target status is `paid`; then, exactly when the target
status is `paid`, sets the owning order's status to `completed` (a second,
non-transactional write). -/
def updatePaymentStatus (s : DB) (pid : Nat) (status : PaymentStatus) :
    Except PaymentError DB :=
  match alookup s.payments pid with
  | none => .error .paymentNotFound
  | some payment =>
    let payment' : Payment :=
      if status = PaymentStatus.paid then
        { payment with status := status, paidAt := some s.now }
      else
        { payment with status := status }
    let s₁ : DB := { s with payments := aupdate s.payments pid payment' }
    if status = PaymentStatus.paid then
      match alookup s₁.orders payment.orderID with
      | none => .error .orderUpdateFailed
      | some ord =>
        .ok { s₁ with orders := aupdate s₁.orders payment.orderID { ord with status := .completed } }
    else .ok s₁

/-! ## cartService.addItemToCart -/

/-- A row of the `CartBook` table apart from its composite key
`(cartID, bookID)`. -/
structure CartBook where
  quantity : Int
  isSelected : Bool
  addedAt : Nat
  deriving Repr, DecidableEq

/-- The database state seen by the cart service: `carts` maps cartID to the
owning userID (`Cart` has a unique index on `userID`); `cartBooks` is keyed by
the composite `(cartID, bookID)`. -/
structure CartDB where
  carts : List (Nat × Nat)
  cartBooks : List ((Nat × Nat) × CartBook)
  books : List (Nat × Book)
  nextID : Nat
  now : Nat
  deriving Repr, DecidableEq

/-- The `throw` sites of `cartService.addItemToCart`. -/
inductive CartError where
  | bookNotFound
  | insufficientStock
  deriving Repr, DecidableEq

/-- `tx.cart.findUnique({ where: { userID } })`: first cart row owned by the
user. -/
def findCartByUser : List (Nat × Nat) → Nat → Option Nat
  | [], _ => none
  | (cid, uid) :: rest, userID =>
    if uid = userID then some cid else findCartByUser rest userID

/-- `cartService.addItemToCart(userID, { bookID, quantity, isSelected })`:
inside one `$transaction`, finds or creates the user's cart, loads the book
(404 when absent), rejects a quantity above the book's current stock, then
either merges into the existing `(cart, book)` row (summing quantities and
overwriting `isSelected`) or inserts a new row. -/
def addItemToCart (s : CartDB) (userID bookID : Nat) (quantity : Int) (isSelected : Bool) :
    Except CartError CartDB :=
  let cart : Nat × CartDB :=
    match findCartByUser s.carts userID with
    | some cid => (cid, s)
    | none =>
      (s.nextID, { s with carts := (s.nextID, userID) :: s.carts, nextID := s.nextID + 1 })
  let cartID := cart.1
  let s₀ := cart.2
  match alookup s₀.books bookID with
  | none => .error .bookNotFound
  | some book =>
    if book.stockQuantity < quantity then .error .insufficientStock
    else
      match alookup s₀.cartBooks (cartID, bookID) with
      | some existing =>
        let merged : CartBook :=
          { existing with quantity := existing.quantity + quantity, isSelected := isSelected }
        .ok { s₀ with cartBooks := aupdate s₀.cartBooks (cartID, bookID) merged }
      | none =>
        let fresh : CartBook := { quantity := quantity, isSelected := isSelected, addedAt := s₀.now }
        .ok { s₀ with cartBooks := ((cartID, bookID), fresh) :: s₀.cartBooks }

/-! ## authService.register and userFactory

`register` runs a `$transaction` whose callback writes the `Authentication`
and `Cart` rows through the transaction client `tx`, but delegates the
profile row to `userFactory`, which writes through the *global* prisma client
`prisma` — outside the transaction.  The callback also generates a local
`userID = uuidv4()` that it uses for the `Cart` row and the returned profile,
while `userFactory.createUser` generates its own, different `uuidv4()` for
the actual `User` row.  The model reproduces the exact sequence of `uuidv4()`
calls on the happy path: authID, the local `userID`, the factory's row id,
and (role `user` only) the cartID. -/

/-- `Authentication.role` values. -/
inductive Role where
  | user | author | admin
  deriving Repr, DecidableEq

/-- A row of the `Authentication` table. -/
structure AuthRow where
  email : String
  pass : String
  role : Role
  deriving Repr, DecidableEq

/-- A row of the `User` table (fields `register`/`userFactory` write). -/
structure UserRow where
  name : String
  phone : Option String
  authID : Nat
  deriving Repr, DecidableEq

/-- A row of the `Author` table. -/
structure AuthorRow where
  name : String
  authID : Nat
  deriving Repr, DecidableEq

/-- A row of the `Admin` table. -/
structure AdminRow where
  authID : Nat
  deriving Repr, DecidableEq

/-- A row of the `Cart` table as written by `register`. -/
structure CartRow where
  userID : Nat
  deriving Repr, DecidableEq

/-- The database state seen by `authService.register`. -/
structure AuthDB where
  auths : List (Nat × AuthRow)
  users : List (Nat × UserRow)
  authors : List (Nat × AuthorRow)
  admins : List (Nat × AdminRow)
  carts : List (Nat × CartRow)
  nextID : Nat
  deriving Repr, DecidableEq

/-- `RegisterInput` as consumed by `authService.register`. -/
structure RegisterInput where
  email : String
  password : String
  name : String
  phone : Option String
  role : Role
  deriving Repr, DecidableEq

/-- The failure of `authService.register` on a duplicate email (surfaced by
the catch-all as a generic "Registration failed"). -/
inductive RegisterError where
  | emailExists
  deriving Repr, DecidableEq

/-- `bcrypt.hash(password, 12)`, modelled as an injective tagging of the
password with the cost factor. -/
def bcryptHash (cost : Nat) (password : String) : String :=
  "bcrypt$" ++ toString cost ++ "$" ++ password

/-- `authentication.findUnique({ where: { email } })`: the table has a unique
index on `email`; first match over the rows. -/
def findAuthByEmail : List (Nat × AuthRow) → String → Option AuthRow
  | [], _ => none
  | (_, a) :: rest, email => if a.email = email then some a else findAuthByEmail rest email

/-- `authService.register`: rejects an email that already has an
`Authentication` row; otherwise creates the `Authentication` row with the
bcrypt hash, draws the local `userID`, has `userFactory` create the profile
row (with the factory's own fresh id), and for role `user` additionally
creates a `Cart` row whose `userID` is the *local* `userID`, not the id of
the `User` row the factory inserted.  Returns the new state and the local
`userID` the caller reports as the profile id. -/
def register (s : AuthDB) (inp : RegisterInput) : Except RegisterError (AuthDB × Nat) :=
  match findAuthByEmail s.auths inp.email with
  | some _ => .error .emailExists
  | none =>
    let hashed := bcryptHash 12 inp.password
    let authID := s.nextID
    let auths' := (authID, AuthRow.mk inp.email hashed inp.role) :: s.auths
    let userID := s.nextID + 1
    match inp.role with
    | .user =>
      let factoryUserID := s.nextID + 2
      let users' := (factoryUserID, UserRow.mk inp.name inp.phone authID) :: s.users
      let cartID := s.nextID + 3
      let carts' := (cartID, CartRow.mk userID) :: s.carts
      .ok ({ s with auths := auths', users := users', carts := carts',
                    nextID := s.nextID + 4 }, userID)
    | .author =>
      let factoryAuthorID := s.nextID + 2
      let authors' := (factoryAuthorID, AuthorRow.mk inp.name authID) :: s.authors
      .ok ({ s with auths := auths', authors := authors', nextID := s.nextID + 3 }, userID)
    | .admin =>
      let factoryAdminID := s.nextID + 2
      let admins' := (factoryAdminID, AdminRow.mk authID) :: s.admins
      .ok ({ s with auths := auths', admins := admins', nextID := s.nextID + 3 }, userID)

/-! ## Association-list lemmas -/

theorem alookup_aupdate {α β : Type} [DecidableEq α] (l : List (α × β)) (k k' : α) (nv : β) :
    alookup (aupdate l k nv) k' =
      if k' = k then (alookup l k).map (fun _ => nv) else alookup l k' := by
  induction l with
  | nil => simp [alookup, aupdate, ite_self]
  | cons hd tl ih =>
    obtain ⟨a, b⟩ := hd
    by_cases hak : a = k
    · subst hak
      by_cases hk' : a = k'
      · subst hk'; simp [aupdate, alookup]
      · simp [aupdate, alookup, hk', Ne.symm hk']
    · by_cases hk' : a = k'
      · subst hk'
        simp [aupdate, alookup, hak, Ne.symm hak]
      · simp [aupdate, alookup, hak, hk', ih]

theorem alookup_aupdate_self {α β : Type} [DecidableEq α] {l : List (α × β)} {k : α} {v : β}
    (nv : β) (h : alookup l k = some v) :
    alookup (aupdate l k nv) k = some nv := by
  rw [alookup_aupdate, if_pos rfl, h]; rfl

theorem alookup_aupdate_ne {α β : Type} [DecidableEq α] (l : List (α × β)) {k k' : α} (nv : β)
    (h : k' ≠ k) :
    alookup (aupdate l k nv) k' = alookup l k' := by
  rw [alookup_aupdate, if_neg h]

theorem alookup_mem {α β : Type} [DecidableEq α] {l : List (α × β)} {k : α} {v : β}
    (h : alookup l k = some v) : (k, v) ∈ l := by
  induction l with
  | nil => simp [alookup] at h
  | cons hd tl ih =>
    obtain ⟨a, b⟩ := hd
    by_cases hak : a = k
    · subst hak
      simp [alookup] at h
      subst h
      exact List.mem_cons_self _ _
    · simp [alookup, hak] at h
      exact List.mem_cons_of_mem _ (ih h)

theorem mem_aupdate {α β : Type} [DecidableEq α] {l : List (α × β)} {k : α} {nv : β} :
    ∀ e ∈ aupdate l k nv, e ∈ l ∨ e = (k, nv) := by
  induction l with
  | nil => simp [aupdate]
  | cons hd tl ih =>
    obtain ⟨a, b⟩ := hd
    by_cases hak : a = k
    · subst hak
      intro e he
      simp [aupdate] at he
      rcases he with he | he
      · right; simp [he]
      · left; exact List.mem_cons_of_mem _ he
    · intro e he
      simp [aupdate, hak] at he
      rcases he with he | he
      · left; simp [he]
      · rcases ih e he with h | h
        · left; exact List.mem_cons_of_mem _ h
        · right; exact h

theorem keys_aupdate {α β : Type} [DecidableEq α] (l : List (α × β)) (k : α) (nv : β) :
    (aupdate l k nv).map Prod.fst = l.map Prod.fst := by
  induction l with
  | nil => rfl
  | cons hd tl ih =>
    obtain ⟨a, b⟩ := hd
    by_cases hak : a = k <;> simp [aupdate, hak, ih]

theorem alookup_eq_none_iff {α β : Type} [DecidableEq α] (l : List (α × β)) (k : α) :
    alookup l k = none ↔ k ∉ l.map Prod.fst := by
  induction l with
  | nil => simp [alookup]
  | cons hd tl ih =>
    obtain ⟨a, b⟩ := hd
    by_cases hak : a = k
    · subst hak; simp [alookup]
    · simp [alookup, hak, ih, Ne.symm hak]

/-! ## Net stock/sold deltas

Both the item loop of `createOrder` and the restore loop of `cancelOrder` are
sequences of additive writes to `(stockQuantity, soldNumber)`; this section
computes their net effect on each book id. -/

/-- Apply one additive `(stock, sold)` delta to a book table. -/
def applyDelta (bs : List (Nat × Book)) (d : Nat × Int × Int) : List (Nat × Book) :=
  match alookup bs d.1 with
  | none => bs
  | some b =>
    aupdate bs d.1
      { b with stockQuantity := b.stockQuantity + d.2.1, soldNumber := b.soldNumber + d.2.2 }

/-- Total stock delta a delta list applies to one book id. -/
def sumDq : List (Nat × Int × Int) → Nat → Int
  | [], _ => 0
  | d :: rest, id => (if d.1 = id then d.2.1 else 0) + sumDq rest id

/-- Total sold-count delta a delta list applies to one book id. -/
def sumDn : List (Nat × Int × Int) → Nat → Int
  | [], _ => 0
  | d :: rest, id => (if d.1 = id then d.2.2 else 0) + sumDn rest id

theorem alookup_foldl_applyDelta (l : List (Nat × Int × Int)) (bs : List (Nat × Book)) (id : Nat) :
    alookup (l.foldl applyDelta bs) id =
      (alookup bs id).map (fun b =>
        { b with stockQuantity := b.stockQuantity + sumDq l id,
                 soldNumber := b.soldNumber + sumDn l id }) := by
  induction l generalizing bs with
  | nil =>
    simp only [List.foldl_nil, sumDq, sumDn]
    cases h : alookup bs id with
    | none => rfl
    | some b => cases b; simp
  | cons d rest ih =>
    simp only [List.foldl_cons]
    rw [ih]
    cases hb : alookup bs d.1 with
    | none =>
      by_cases hid : d.1 = id
      · subst hid
        simp [applyDelta, hb]
      · simp [applyDelta, hb, sumDq, sumDn, hid]
    | some b =>
      by_cases hid : d.1 = id
      · subst hid
        have hup : alookup (applyDelta bs d) d.1 =
            some { b with stockQuantity := b.stockQuantity + d.2.1,
                          soldNumber := b.soldNumber + d.2.2 } := by
          simp only [applyDelta, hb]
          exact alookup_aupdate_self _ hb
        rw [hup, hb]
        cases b
        simp [sumDq, sumDn, add_assoc]
      · have hup : alookup (applyDelta bs d) id = alookup bs id := by
          simp only [applyDelta, hb]
          exact alookup_aupdate_ne _ _ (fun h => hid h.symm)
        rw [hup]
        simp [sumDq, sumDn, hid]

/-- The deltas written by the item loop of `createOrder`. -/
def createDeltas (items : List OrderItemInput) : List (Nat × Int × Int) :=
  items.map (fun it => (it.bookID, -it.quantity, it.quantity))

/-- The deltas written by the restore loop of `cancelOrder`. -/
def cancelDeltas (lis : List OrderLineItem) : List (Nat × Int × Int) :=
  lis.map (fun li => (li.bookID, li.quantity, -li.quantity))

/-! ## Lemmas about the createOrder item loop -/

theorem processItems_ok (items : List OrderItemInput) (s s' : DB) (total : Int)
    (lis : List OrderLineItem) (h : processItems s items = .ok (s', total, lis)) :
    s'.books = (createDeltas items).foldl applyDelta s.books ∧
    s'.users = s.users ∧ s'.orders = s.orders ∧ s'.payments = s.payments ∧
    s'.nextID = s.nextID ∧ s'.now = s.now ∧
    lis.map (fun li => (li.bookID, li.quantity)) = items.map (fun it => (it.bookID, it.quantity)) ∧
    total = (lis.map OrderLineItem.subTotal).sum ∧
    (∀ li ∈ lis, li.subTotal = li.priceAtTime * li.quantity ∧ 0 < li.quantity) := by
  induction items generalizing s total lis with
  | nil =>
    rw [processItems] at h
    simp only [Except.ok.injEq, Prod.mk.injEq] at h
    obtain ⟨h1, h2, h3⟩ := h
    subst h1; subst h2; subst h3
    simp [createDeltas]
  | cons it rest ih =>
    rw [processItems] at h
    split at h
    · exact absurd h (by simp)
    next book hb =>
      split at h
      · exact absurd h (by simp)
      next hstock =>
        split at h
        · exact absurd h (by simp)
        next hqty =>
          dsimp only at h
          split at h
          · exact absurd h (by simp)
          next s'' t lis' hrec =>
            simp only [Except.ok.injEq, Prod.mk.injEq] at h
            obtain ⟨h1, h2, h3⟩ := h
            subst h1; subst h2; subst h3
            obtain ⟨hb', hu, ho, hp, hn, hw, hmap, htot, hli⟩ := ih _ _ _ hrec
            refine ⟨?_, hu, ho, hp, hn, hw, ?_, ?_, ?_⟩
            · rw [hb']
              simp only [createDeltas, List.map_cons, List.foldl_cons]
              have : applyDelta s.books (it.bookID, -it.quantity, it.quantity) =
                  aupdate s.books it.bookID
                    { book with stockQuantity := book.stockQuantity - it.quantity,
                                soldNumber := book.soldNumber + it.quantity } := by
                simp [applyDelta, hb, sub_eq_add_neg]
              rw [← this]
            · simp [hmap]
            · simp [htot]
            · intro li hmem
              rcases List.mem_cons.mp hmem with hhd | htl
              · subst hhd
                refine ⟨rfl, ?_⟩
                show (0 : Int) < it.quantity
                omega
              · exact hli _ htl

theorem processItems_price (items : List OrderItemInput) (s s' : DB) (total : Int)
    (lis : List OrderLineItem) (h : processItems s items = .ok (s', total, lis)) :
    ∀ li ∈ lis, ∃ bk, alookup s.books li.bookID = some bk ∧ li.priceAtTime = bk.price := by
  induction items generalizing s total lis with
  | nil =>
    rw [processItems] at h
    simp only [Except.ok.injEq, Prod.mk.injEq] at h
    obtain ⟨h1, h2, h3⟩ := h
    subst h3
    simp
  | cons it rest ih =>
    rw [processItems] at h
    split at h
    · exact absurd h (by simp)
    next book hb =>
      split at h
      · exact absurd h (by simp)
      next hstock =>
        split at h
        · exact absurd h (by simp)
        next hqty =>
          dsimp only at h
          split at h
          · exact absurd h (by simp)
          next s'' t lis' hrec =>
            simp only [Except.ok.injEq, Prod.mk.injEq] at h
            obtain ⟨h1, h2, h3⟩ := h
            subst h1; subst h3
            intro li hmem
            rcases List.mem_cons.mp hmem with hhd | htl
            · subst hhd
              exact ⟨book, hb, rfl⟩
            · obtain ⟨bk, hbk, hpr⟩ := ih _ _ _ hrec li htl
              by_cases hid : li.bookID = it.bookID
              · rw [hid] at hbk ⊢
                have : alookup (aupdate s.books it.bookID
                    { book with stockQuantity := book.stockQuantity - it.quantity,
                                soldNumber := book.soldNumber + it.quantity }) it.bookID =
                    some { book with stockQuantity := book.stockQuantity - it.quantity,
                                     soldNumber := book.soldNumber + it.quantity } :=
                  alookup_aupdate_self _ hb
                rw [this] at hbk
                injection hbk with hbk
                refine ⟨book, hb, ?_⟩
                rw [hpr, ← hbk]
              · have : alookup (aupdate s.books it.bookID
                    { book with stockQuantity := book.stockQuantity - it.quantity,
                                soldNumber := book.soldNumber + it.quantity }) li.bookID =
                    alookup s.books li.bookID :=
                  alookup_aupdate_ne _ _ hid
                rw [this] at hbk
                exact ⟨bk, hbk, hpr⟩

/-- An input item that is doomed to fail in the item loop: its book is
absent, its quantity is non-positive, or its quantity exceeds the book's
stock as read at the start of the transaction. -/
def badItem (s : DB) (it : OrderItemInput) : Prop :=
  alookup s.books it.bookID = none ∨ it.quantity ≤ 0 ∨
    ∃ bk, alookup s.books it.bookID = some bk ∧ bk.stockQuantity < it.quantity

theorem processItems_bad (items : List OrderItemInput) (s : DB)
    (h : ∃ it ∈ items, badItem s it) :
    ∃ e, processItems s items = .error e := by
  induction items generalizing s with
  | nil => simp at h
  | cons it rest ih =>
    cases hb : alookup s.books it.bookID with
    | none => exact ⟨.bookNotFound it.bookID, by rw [processItems, hb]⟩
    | some book =>
      by_cases hstock : book.stockQuantity < it.quantity
      · exact ⟨.insufficientStock it.bookID, by rw [processItems, hb]; simp [hstock]⟩
      · by_cases hqty : it.quantity ≤ 0
        · exact ⟨.invalidQuantity it.bookID, by rw [processItems, hb]; simp [hstock, hqty]⟩
        · obtain ⟨w, hw, hbad⟩ := h
          rcases List.mem_cons.mp hw with rfl | hwrest
          · exfalso
            rcases hbad with hnone | hneg | ⟨bk, hbk, hlt⟩
            · rw [hb] at hnone; exact Option.noConfusion hnone
            · exact hqty hneg
            · rw [hb] at hbk; injection hbk with hbk; subst hbk; exact hstock hlt
          · have hbad' : badItem ({ s with books := aupdate s.books it.bookID ({ book with stockQuantity := book.stockQuantity - it.quantity, soldNumber := book.soldNumber + it.quantity }) }) w := by
              rcases hbad with hnone | hneg | ⟨bk, hbk, hlt⟩
              · left
                have hne : w.bookID ≠ it.bookID := by
                  intro he; rw [he, hb] at hnone; exact Option.noConfusion hnone
                simpa [alookup_aupdate_ne _ _ hne] using hnone
              · right; left; exact hneg
              · right; right
                by_cases hid : w.bookID = it.bookID
                · rw [hid] at hbk
                  rw [hb] at hbk; injection hbk with hbk; subst hbk
                  refine ⟨_, by rw [hid]; exact alookup_aupdate_self _ hb, ?_⟩
                  show book.stockQuantity - it.quantity < w.quantity
                  omega
                · exact ⟨bk, by simpa [alookup_aupdate_ne _ _ hid] using hbk, hlt⟩
            obtain ⟨e, he⟩ := ih _ ⟨w, hwrest, hbad'⟩
            refine ⟨e, ?_⟩
            rw [processItems, hb]
            simp only [if_neg hstock, if_neg hqty]
            rw [he]

/-- Every book row keeps a non-negative stock quantity. -/
def stockNonneg (bs : List (Nat × Book)) : Prop :=
  ∀ e ∈ bs, 0 ≤ e.2.stockQuantity

instance (bs : List (Nat × Book)) : Decidable (stockNonneg bs) := by
  unfold stockNonneg; infer_instance

theorem processItems_stockNonneg (items : List OrderItemInput) (s s' : DB) (total : Int)
    (lis : List OrderLineItem) (h : processItems s items = .ok (s', total, lis))
    (hs : stockNonneg s.books) : stockNonneg s'.books := by
  induction items generalizing s total lis with
  | nil =>
    rw [processItems] at h
    simp only [Except.ok.injEq, Prod.mk.injEq] at h
    obtain ⟨h1, h2, h3⟩ := h
    subst h1
    exact hs
  | cons it rest ih =>
    rw [processItems] at h
    split at h
    · exact absurd h (by simp)
    next book hb =>
      split at h
      · exact absurd h (by simp)
      next hstock =>
        split at h
        · exact absurd h (by simp)
        next hqty =>
          dsimp only at h
          split at h
          · exact absurd h (by simp)
          next s'' t lis' hrec =>
            simp only [Except.ok.injEq, Prod.mk.injEq] at h
            obtain ⟨h1, h2, h3⟩ := h
            subst h1
            refine ih _ _ _ hrec ?_
            intro e he
            rcases mem_aupdate e he with hold | hnew
            · exact hs e hold
            · subst hnew
              show 0 ≤ book.stockQuantity - it.quantity
              omega

/-! ## Lemmas about the cancelOrder restore loop -/

theorem restoreBooks_ok_eq (lis : List OrderLineItem) (bs bs' : List (Nat × Book))
    (h : restoreBooks bs lis = .ok bs') :
    bs' = (cancelDeltas lis).foldl applyDelta bs := by
  induction lis generalizing bs with
  | nil =>
    rw [restoreBooks] at h
    injection h with h
    subst h
    simp [cancelDeltas]
  | cons li rest ih =>
    rw [restoreBooks] at h
    split at h
    · exact absurd h (by simp)
    next b hb =>
      dsimp only at h
      rw [ih _ h]
      simp only [cancelDeltas, List.map_cons, List.foldl_cons]
      congr 1
      simp [applyDelta, hb, sub_eq_add_neg]

theorem restoreBooks_total (lis : List OrderLineItem) (bs : List (Nat × Book))
    (h : ∀ li ∈ lis, (alookup bs li.bookID).isSome = true) :
    ∃ bs', restoreBooks bs lis = .ok bs' := by
  induction lis generalizing bs with
  | nil => exact ⟨bs, rfl⟩
  | cons li rest ih =>
    have h0 := h li (List.mem_cons_self _ _)
    cases hb : alookup bs li.bookID with
    | none => rw [hb] at h0; simp at h0
    | some b =>
      have htail : ∀ li' ∈ rest,
          (alookup (aupdate bs li.bookID ({ b with stockQuantity := b.stockQuantity + li.quantity, soldNumber := b.soldNumber - li.quantity })) li'.bookID).isSome = true := by
        intro li' hmem
        rw [alookup_aupdate]
        by_cases hid : li'.bookID = li.bookID
        · rw [if_pos hid, hb]; rfl
        · rw [if_neg hid]
          exact h li' (List.mem_cons_of_mem _ hmem)
      obtain ⟨bs', hbs'⟩ := ih _ htail
      refine ⟨bs', ?_⟩
      rw [restoreBooks, hb]
      exact hbs'

theorem restoreBooks_stockNonneg (lis : List OrderLineItem) (bs bs' : List (Nat × Book))
    (h : restoreBooks bs lis = .ok bs') (hq : ∀ li ∈ lis, 0 ≤ li.quantity)
    (hs : stockNonneg bs) : stockNonneg bs' := by
  induction lis generalizing bs with
  | nil =>
    rw [restoreBooks] at h
    injection h with h
    subst h
    exact hs
  | cons li rest ih =>
    rw [restoreBooks] at h
    split at h
    · exact absurd h (by simp)
    next b hb =>
      dsimp only at h
      refine ih _ h (fun li' hm => hq li' (List.mem_cons_of_mem _ hm)) ?_
      intro e he
      rcases mem_aupdate e he with hold | hnew
      · exact hs e hold
      · subst hnew
        have hb0 := hs _ (alookup_mem hb)
        have hq0 := hq li (List.mem_cons_self _ _)
        show 0 ≤ b.stockQuantity + li.quantity
        simp only at hb0
        omega

/-! ## Destructuring successful createOrder / cancelOrder runs -/

theorem createOrder_ok_destruct (s : DB) (inp : OrderCreateInput) (s' : DB) (oid : Nat)
    (h : createOrder s inp = .ok (s', oid)) :
    ∃ sm total lis address addresses,
      alookup s.users inp.userID = some addresses ∧
      findAddress addresses inp.addressID = some address ∧
      inp.items ≠ [] ∧
      processItems s inp.items = .ok (sm, total, lis) ∧
      oid = sm.nextID ∧
      s' = { sm with
              orders := (oid, { userID := inp.userID, status := .pending,
                                totalAmount := total,
                                addressSnapshot := formatAddressSnapshot address,
                                phoneSnapshot := inp.phone, books := lis }) :: sm.orders,
              nextID := sm.nextID + 1 } := by
  rw [createOrder] at h
  split at h
  · exact absurd h (by simp)
  next addresses hu =>
    split at h
    · exact absurd h (by simp)
    next address ha =>
      split at h
      · exact absurd h (by simp)
      next hemp =>
        split at h
        · exact absurd h (by simp)
        next sm total lis hpi =>
          simp only [Except.ok.injEq, Prod.mk.injEq] at h
          obtain ⟨h1, h2⟩ := h
          refine ⟨sm, total, lis, address, addresses, hu, ha, ?_, hpi, h2.symm, ?_⟩
          · intro hnil
            rw [hnil] at hemp
            exact hemp rfl
          · rw [← h1, ← h2]

theorem cancelOrder_ok_destruct (s : DB) (oid : Nat) (s' : DB)
    (h : cancelOrder s oid = .ok s') :
    ∃ order bs',
      alookup s.orders oid = some order ∧ order.status = .pending ∧
      restoreBooks s.books order.books = .ok bs' ∧
      s' = { s with books := bs',
                    orders := aupdate s.orders oid { order with status := .canceled } } := by
  rw [cancelOrder] at h
  split at h
  · exact absurd h (by simp)
  next order ho =>
    split at h
    · exact absurd h (by simp)
    next hpend =>
      split at h
      · exact absurd h (by simp)
      next bs' hrb =>
        injection h with h
        refine ⟨order, bs', ho, ?_, hrb, h.symm⟩
        by_contra hne
        exact hpend hne

/-! ## Delta sums of the two loops cancel -/

/-- Total quantity a `(bookID, quantity)` list carries for one book id. -/
def pairsQ : List (Nat × Int) → Nat → Int
  | [], _ => 0
  | p :: rest, id => (if p.1 = id then p.2 else 0) + pairsQ rest id

theorem sumDq_createDeltas (items : List OrderItemInput) (id : Nat) :
    sumDq (createDeltas items) id =
      -pairsQ (items.map (fun it => (it.bookID, it.quantity))) id := by
  induction items with
  | nil => simp [createDeltas, sumDq, pairsQ]
  | cons it rest ih =>
    simp only [createDeltas, List.map_cons, sumDq, pairsQ] at *
    rw [ih]
    by_cases hid : it.bookID = id <;> simp [hid] <;> ring

theorem sumDn_createDeltas (items : List OrderItemInput) (id : Nat) :
    sumDn (createDeltas items) id =
      pairsQ (items.map (fun it => (it.bookID, it.quantity))) id := by
  induction items with
  | nil => simp [createDeltas, sumDn, pairsQ]
  | cons it rest ih =>
    simp only [createDeltas, List.map_cons, sumDn, pairsQ] at *
    rw [ih]

theorem sumDq_cancelDeltas (lis : List OrderLineItem) (id : Nat) :
    sumDq (cancelDeltas lis) id =
      pairsQ (lis.map (fun li => (li.bookID, li.quantity))) id := by
  induction lis with
  | nil => simp [cancelDeltas, sumDq, pairsQ]
  | cons li rest ih =>
    simp only [cancelDeltas, List.map_cons, sumDq, pairsQ] at *
    rw [ih]

theorem sumDn_cancelDeltas (lis : List OrderLineItem) (id : Nat) :
    sumDn (cancelDeltas lis) id =
      -pairsQ (lis.map (fun li => (li.bookID, li.quantity))) id := by
  induction lis with
  | nil => simp [cancelDeltas, sumDn, pairsQ]
  | cons li rest ih =>
    simp only [cancelDeltas, List.map_cons, sumDn, pairsQ] at *
    rw [ih]
    by_cases hid : li.bookID = id <;> simp [hid] <;> ring

/-! ## Well-formedness invariant for order operations -/

/-- Every stored order's line items carry a non-negative quantity. -/
def ordersQNonneg (orders : List (Nat × Order)) : Prop :=
  ∀ e ∈ orders, ∀ li ∈ e.2.books, 0 ≤ li.quantity

instance (orders : List (Nat × Order)) : Decidable (ordersQNonneg orders) := by
  unfold ordersQNonneg; infer_instance

theorem createOrder_preserves_inv (s : DB) (inp : OrderCreateInput) (s' : DB) (oid : Nat)
    (h : createOrder s inp = .ok (s', oid))
    (h1 : stockNonneg s.books) (h2 : ordersQNonneg s.orders) :
    stockNonneg s'.books ∧ ordersQNonneg s'.orders := by
  obtain ⟨sm, total, lis, address, addresses, hu, ha, hne, hpi, hoid, hs'⟩ :=
    createOrder_ok_destruct s inp s' oid h
  obtain ⟨hbooks, husers, horders, hpay, hnext, hnow, hmap, htot, hli⟩ :=
    processItems_ok _ _ _ _ _ hpi
  subst hs'
  constructor
  · show stockNonneg sm.books
    exact processItems_stockNonneg _ _ _ _ _ hpi h1
  · intro e he
    rcases List.mem_cons.mp he with rfl | hold
    · intro li hm
      exact le_of_lt ((hli li hm).2)
    · rw [horders] at hold
      exact h2 e hold

theorem cancelOrder_preserves_inv (s : DB) (oid : Nat) (s' : DB)
    (h : cancelOrder s oid = .ok s')
    (h1 : stockNonneg s.books) (h2 : ordersQNonneg s.orders) :
    stockNonneg s'.books ∧ ordersQNonneg s'.orders := by
  obtain ⟨order, bs', ho, hpend, hrb, hs'⟩ := cancelOrder_ok_destruct s oid s' h
  subst hs'
  have hq : ∀ li ∈ order.books, 0 ≤ li.quantity := h2 _ (alookup_mem ho)
  constructor
  · exact restoreBooks_stockNonneg _ _ _ hrb hq h1
  · intro e he
    rcases mem_aupdate e he with hold | hnew
    · exact h2 e hold
    · subst hnew
      intro li hm
      exact hq li hm

theorem orderStep_preserves_inv (s : DB) (op : OrderOp)
    (h1 : stockNonneg s.books) (h2 : ordersQNonneg s.orders) :
    stockNonneg (orderStep s op).books ∧ ordersQNonneg (orderStep s op).orders := by
  cases op with
  | create inp =>
    rw [orderStep]
    cases h : createOrder s inp with
    | error e => exact ⟨h1, h2⟩
    | ok p => exact createOrder_preserves_inv s inp p.1 p.2 (by rw [h]) h1 h2
  | cancel oid =>
    rw [orderStep]
    cases h : cancelOrder s oid with
    | error e => exact ⟨h1, h2⟩
    | ok s' => exact cancelOrder_preserves_inv s oid s' h h1 h2

theorem runOps_preserves_inv (ops : List OrderOp) (s : DB)
    (h1 : stockNonneg s.books) (h2 : ordersQNonneg s.orders) :
    stockNonneg (runOps s ops).books ∧ ordersQNonneg (runOps s ops).orders := by
  induction ops generalizing s with
  | nil => exact ⟨h1, h2⟩
  | cons op rest ih =>
    obtain ⟨g1, g2⟩ := orderStep_preserves_inv s op h1 h2
    exact ih _ g1 g2

/-! ## Claim theorems -/

theorem updateBookPrice_orders (s : DB) (bookID : Nat) (p : Int) :
    (updateBookPrice s bookID p).orders = s.orders := by
  rw [updateBookPrice]
  cases alookup s.books bookID <;> rfl

/-- C1: for every successful order creation, the persisted order's totalAmount
equals the sum of its line items' subTotals, each line item's subTotal equals
its priceAtTime multiplied by its quantity, and priceAtTime equals the book's
price read during creation (the price in the pre-call state), independent of
any later price change to the book. -/
theorem createOrder_total_integrity (s : DB) (inp : OrderCreateInput) (s' : DB) (oid : Nat)
    (h : createOrder s inp = .ok (s', oid)) :
    ∃ order, alookup s'.orders oid = some order ∧
      order.totalAmount = (order.books.map OrderLineItem.subTotal).sum ∧
      (∀ li ∈ order.books, li.subTotal = li.priceAtTime * li.quantity) ∧
      (∀ li ∈ order.books, ∃ bk, alookup s.books li.bookID = some bk ∧ li.priceAtTime = bk.price) ∧
      (∀ bookID newPrice,
        alookup (updateBookPrice s' bookID newPrice).orders oid = some order) := by
  obtain ⟨sm, total, lis, address, addresses, hu, ha, hne, hpi, hoid, hs'⟩ :=
    createOrder_ok_destruct s inp s' oid h
  obtain ⟨hbooks, husers, horders, hpay, hnext, hnow, hmap, htot, hli⟩ :=
    processItems_ok _ _ _ _ _ hpi
  have hprice := processItems_price _ _ _ _ _ hpi
  subst hs'
  refine ⟨{ userID := inp.userID, status := .pending, totalAmount := total,
            addressSnapshot := formatAddressSnapshot address, phoneSnapshot := inp.phone,
            books := lis }, ?_, htot, fun li hm => (hli li hm).1, hprice, ?_⟩
  · show alookup ((oid, _) :: sm.orders) oid = _
    rw [alookup, if_pos rfl]
  · intro bookID newPrice
    rw [updateBookPrice_orders]
    show alookup ((oid, _) :: sm.orders) oid = _
    rw [alookup, if_pos rfl]

/-- A concrete database: one user with one address, two books in stock. -/
def c1DB : DB :=
  { users := [(10, [{ addressID := 20, specificAddress := some "12 Tran Phu",
                      ward := "Ward 5", city := "HCMC" }])],
    books := [(1, { price := 100000, stockQuantity := 50, soldNumber := 7 }),
              (2, { price := 40000, stockQuantity := 10, soldNumber := 0 })],
    orders := [], payments := [], nextID := 100, now := 9 }

/-- A concrete two-item order request against `c1DB`. -/
def c1Inp : OrderCreateInput :=
  { userID := 10, addressID := 20, phone := "0900123456",
    items := [{ bookID := 1, quantity := 2 }, { bookID := 2, quantity := 3 }] }

theorem createOrder_total_integrity_witness :
    ∃ order, alookup (orderStep c1DB (OrderOp.create c1Inp)).orders 100 = some order ∧
      order.totalAmount = (order.books.map OrderLineItem.subTotal).sum ∧
      (∀ li ∈ order.books, li.subTotal = li.priceAtTime * li.quantity) ∧
      (∀ li ∈ order.books, ∃ bk, alookup c1DB.books li.bookID = some bk ∧ li.priceAtTime = bk.price) ∧
      (∀ bookID newPrice,
        alookup (updateBookPrice (orderStep c1DB (OrderOp.create c1Inp)) bookID newPrice).orders 100 =
          some order) :=
  createOrder_total_integrity c1DB c1Inp (orderStep c1DB (OrderOp.create c1Inp)) 100 (by rfl)

/-- C3: if order creation fails at any step — unknown user or address, empty
item list, or a doomed item (missing book, non-positive quantity, or quantity
above that book's current stock) — the committed state is unchanged: no book's
stockQuantity or soldNumber moves and no order row is inserted.  In particular
an item whose quantity exceeds its book's stock makes the whole multi-item
request fail. -/
theorem createOrder_failure_atomic (s : DB) (inp : OrderCreateInput) :
    ((∃ e, createOrder s inp = .error e) → orderStep s (.create inp) = s)
    ∧ (alookup s.users inp.userID = none → createOrder s inp = .error .userNotFound)
    ∧ (∀ addresses, alookup s.users inp.userID = some addresses →
        findAddress addresses inp.addressID = none →
        createOrder s inp = .error .addressNotFound)
    ∧ (∀ addresses address, alookup s.users inp.userID = some addresses →
        findAddress addresses inp.addressID = some address → inp.items = [] →
        createOrder s inp = .error .emptyItems)
    ∧ ((∃ it ∈ inp.items, badItem s it) → ∃ e, createOrder s inp = .error e) := by
  refine ⟨?_, ?_, ?_, ?_, ?_⟩
  · rintro ⟨e, he⟩
    rw [orderStep, he]
  · intro hu
    rw [createOrder, hu]
  · intro addresses hu ha
    rw [createOrder, hu]
    simp [ha]
  · intro addresses address hu ha hnil
    rw [createOrder, hu]
    simp [ha, hnil]
  · intro hbad
    cases hu : alookup s.users inp.userID with
    | none => exact ⟨.userNotFound, by rw [createOrder, hu]⟩
    | some addresses =>
      cases ha : findAddress addresses inp.addressID with
      | none => exact ⟨.addressNotFound, by rw [createOrder, hu]; simp [ha]⟩
      | some address =>
        obtain ⟨e, he⟩ := processItems_bad inp.items s hbad
        have hemp : ¬inp.items.isEmpty = true := by
          obtain ⟨it, hit, _⟩ := hbad
          cases hi : inp.items with
          | nil => rw [hi] at hit; simp at hit
          | cons a b => simp [hi]
        refine ⟨e, ?_⟩
        rw [createOrder, hu]
        simp only [ha, hemp, if_neg, ite_false, Bool.false_eq_true]
        rw [he]

theorem createOrder_failure_atomic_witness :
    (∃ e, createOrder c1DB { c1Inp with items := [{ bookID := 1, quantity := 100 }] } = .error e)
    ∧ orderStep c1DB (.create { c1Inp with items := [{ bookID := 1, quantity := 100 }] }) = c1DB := by
  have h := createOrder_failure_atomic c1DB { c1Inp with items := [{ bookID := 1, quantity := 100 }] }
  have hbad : ∃ it ∈ ({ c1Inp with items := [{ bookID := 1, quantity := 100 }] } : OrderCreateInput).items,
      badItem c1DB it := by
    refine ⟨{ bookID := 1, quantity := 100 }, by simp, ?_⟩
    right; right
    exact ⟨{ price := 100000, stockQuantity := 50, soldNumber := 7 }, by rfl, by decide⟩
  obtain ⟨e, he⟩ := h.2.2.2.2 hbad
  exact ⟨⟨e, he⟩, h.1 ⟨e, he⟩⟩

/-- C4: canceling the order just created restores every book's stockQuantity
and soldNumber to their pre-order values and marks the order canceled;
cancelOrder fails with `notFound` on a missing order and `invalidState` on a
non-pending one, and any failed cancel leaves the committed state unchanged. -/
theorem cancelOrder_restores (s₀ : DB) (inp : OrderCreateInput) (s₁ : DB) (oid : Nat)
    (hc : createOrder s₀ inp = .ok (s₁, oid)) :
    (∃ s₂, cancelOrder s₁ oid = .ok s₂ ∧
      (∀ id, (alookup s₂.books id).map (fun b => (b.stockQuantity, b.soldNumber)) =
             (alookup s₀.books id).map (fun b => (b.stockQuantity, b.soldNumber))) ∧
      (∃ o, alookup s₂.orders oid = some o ∧ o.status = .canceled))
    ∧ (∀ (s : DB) (i : Nat), alookup s.orders i = none → cancelOrder s i = .error .notFound)
    ∧ (∀ (s : DB) (i : Nat) (o : Order), alookup s.orders i = some o →
        o.status ≠ .pending → cancelOrder s i = .error .invalidState)
    ∧ (∀ (s : DB) (i : Nat), (∃ e, cancelOrder s i = .error e) → orderStep s (.cancel i) = s) := by
  obtain ⟨sm, total, lis, address, addresses, hu, ha, hne, hpi, hoid, hs₁⟩ :=
    createOrder_ok_destruct s₀ inp s₁ oid hc
  obtain ⟨hbooks, husers, horders, hpay, hnext, hnow, hmap, htot, hli⟩ :=
    processItems_ok _ _ _ _ _ hpi
  have hprice := processItems_price _ _ _ _ _ hpi
  have hlook : alookup s₁.orders oid =
      some { userID := inp.userID, status := .pending, totalAmount := total,
             addressSnapshot := formatAddressSnapshot address,
             phoneSnapshot := inp.phone, books := lis } := by
    rw [hs₁]
    show alookup ((oid, _) :: sm.orders) oid = _
    rw [alookup, if_pos rfl]
  have hsbooks : s₁.books = sm.books := by rw [hs₁]
  have hsome : ∀ li ∈ lis, (alookup s₁.books li.bookID).isSome = true := by
    intro li hm
    obtain ⟨bk, hbk, _⟩ := hprice li hm
    rw [hsbooks, hbooks, alookup_foldl_applyDelta, hbk]
    rfl
  obtain ⟨bs', hrb⟩ := restoreBooks_total lis s₁.books hsome
  have hcancel : cancelOrder s₁ oid =
      .ok { s₁ with books := bs',
                    orders := aupdate s₁.orders oid
                      { userID := inp.userID, status := .canceled, totalAmount := total,
                        addressSnapshot := formatAddressSnapshot address,
                        phoneSnapshot := inp.phone, books := lis } } := by
    rw [cancelOrder, hlook]
    dsimp only
    rw [if_neg (fun h => h rfl : ¬(OrderStatus.pending ≠ OrderStatus.pending))]
    rw [hrb]
  refine ⟨⟨_, hcancel, ?_, ?_⟩, ?_, ?_, ?_⟩
  · intro id
    show (alookup bs' id).map _ = _
    have hbs' := restoreBooks_ok_eq lis s₁.books bs' hrb
    rw [hbs', hsbooks, hbooks, alookup_foldl_applyDelta, alookup_foldl_applyDelta]
    cases hb0 : alookup s₀.books id with
    | none => rfl
    | some b =>
      simp only [Option.map_some', Option.some.injEq, Prod.mk.injEq]
      have h1 := sumDq_createDeltas inp.items id
      have h2 := sumDn_createDeltas inp.items id
      have h3 := sumDq_cancelDeltas lis id
      have h4 := sumDn_cancelDeltas lis id
      rw [hmap] at h3 h4
      constructor <;> omega
  · refine ⟨{ userID := inp.userID, status := .canceled, totalAmount := total,
              addressSnapshot := formatAddressSnapshot address,
              phoneSnapshot := inp.phone, books := lis }, ?_, rfl⟩
    show alookup (aupdate s₁.orders oid _) oid = _
    exact alookup_aupdate_self _ hlook
  · intro s i ho
    rw [cancelOrder, ho]
  · intro s i o ho hstat
    rw [cancelOrder, ho]
    simp [hstat]
  · rintro s i ⟨e, he⟩
    rw [orderStep, he]

theorem cancelOrder_restores_witness :
    (∃ s₂, cancelOrder (orderStep c1DB (OrderOp.create c1Inp)) 100 = .ok s₂ ∧
      (∀ id, (alookup s₂.books id).map (fun b => (b.stockQuantity, b.soldNumber)) =
             (alookup c1DB.books id).map (fun b => (b.stockQuantity, b.soldNumber))) ∧
      (∃ o, alookup s₂.orders 100 = some o ∧ o.status = .canceled))
    ∧ (∀ (s : DB) (i : Nat), alookup s.orders i = none → cancelOrder s i = .error .notFound)
    ∧ (∀ (s : DB) (i : Nat) (o : Order), alookup s.orders i = some o →
        o.status ≠ .pending → cancelOrder s i = .error .invalidState)
    ∧ (∀ (s : DB) (i : Nat), (∃ e, cancelOrder s i = .error e) → orderStep s (.cancel i) = s) :=
  cancelOrder_restores c1DB c1Inp (orderStep c1DB (OrderOp.create c1Inp)) 100 (by rfl)

/-- A database whose books all have non-negative stock but which stores a
pending order carrying a negative line-item quantity. -/
def c2DB : DB :=
  { users := [],
    books := [(1, { price := 10, stockQuantity := 3, soldNumber := 0 })],
    orders := [(1, { userID := 5, status := .pending, totalAmount := -50,
                     addressSnapshot := "a", phoneSnapshot := "p",
                     books := [{ bookID := 1, priceAtTime := 10,
                                 quantity := -5, subTotal := -50 }] })],
    payments := [], nextID := 2, now := 0 }

/-- C2, as stated, is false: from a state whose only assumed property is that
every book's stockQuantity is ≥ 0, a committed cancel of a stored pending
order with a negative line-item quantity drives a book's stock below zero
(cancelOrder increments stock by the recorded quantity). -/
theorem stock_nonneg_claim_counterexample :
    stockNonneg c2DB.books ∧
      ¬ stockNonneg ((runOps c2DB [OrderOp.cancel 1]).books) := by
  constructor
  · decide
  · decide

/-- C2, amended: when additionally every stored order's line items carry
non-negative quantities (which holds for every order the code itself creates),
every book's stockQuantity stays ≥ 0 after any sequence of committed
order-create/cancel operations — and the added condition is itself preserved,
so the invariant holds after each prefix of the sequence as well. -/
theorem stock_nonneg_invariant (s : DB) (ops : List OrderOp)
    (h1 : stockNonneg s.books) (h2 : ordersQNonneg s.orders) :
    stockNonneg ((runOps s ops).books) ∧ ordersQNonneg ((runOps s ops).orders) :=
  runOps_preserves_inv ops s h1 h2

theorem stock_nonneg_invariant_witness :
    stockNonneg c1DB.books ∧ ordersQNonneg c1DB.orders ∧
      stockNonneg ((runOps c1DB [OrderOp.create c1Inp, OrderOp.cancel 100]).books) :=
  ⟨by decide, by decide,
    (stock_nonneg_invariant c1DB [OrderOp.create c1Inp, OrderOp.cancel 100]
      (by decide) (by decide)).1⟩

/-- C6: createPayment fails with orderNotFound when the order is missing,
with paymentExists when the order already has a payment, and with
amountMismatch when the amount differs from the order's totalAmount; every
failure leaves the committed state unchanged (no Payment row), and a success
inserts a payment row in status processing for that order and amount. -/
theorem createPayment_spec (s : DB) (oid : Nat) (method : String) (amount : Int) :
    (alookup s.orders oid = none →
      createPayment s oid method amount = .error .orderNotFound)
    ∧ (∀ order p, alookup s.orders oid = some order →
        findPaymentByOrder s.payments oid = some p →
        createPayment s oid method amount = .error .paymentExists)
    ∧ (∀ order, alookup s.orders oid = some order →
        findPaymentByOrder s.payments oid = none → amount ≠ order.totalAmount →
        createPayment s oid method amount = .error .amountMismatch)
    ∧ ((∃ e, createPayment s oid method amount = .error e) →
        createPaymentStep s oid method amount = s)
    ∧ (∀ s' pid, createPayment s oid method amount = .ok (s', pid) →
        alookup s'.payments pid =
          some { orderID := oid, status := .processing, method := method,
                 amount := amount, paidAt := none }) := by
  refine ⟨?_, ?_, ?_, ?_, ?_⟩
  · intro ho
    rw [createPayment, ho]
  · intro order p ho hp
    rw [createPayment, ho]
    simp [hp]
  · intro order ho hp hne
    rw [createPayment, ho]
    simp [hp, hne]
  · rintro ⟨e, he⟩
    rw [createPaymentStep, he]
  · intro s' pid h
    rw [createPayment] at h
    split at h
    · exact absurd h (by simp)
    next order ho =>
      split at h
      · exact absurd h (by simp)
      next hp =>
        split at h
        · exact absurd h (by simp)
        next hne =>
          simp only [Except.ok.injEq, Prod.mk.injEq] at h
          obtain ⟨h1, h2⟩ := h
          subst h2
          rw [← h1]
          show alookup ((s.nextID, _) :: s.payments) s.nextID = _
          rw [alookup, if_pos rfl]

/-- A pending order with totalAmount 1000. -/
def c6Order : Order :=
  { userID := 1, status := .pending, totalAmount := 1000,
    addressSnapshot := "a", phoneSnapshot := "p", books := [] }

/-- A database holding `c6Order` and no payments. -/
def c6DB : DB :=
  { users := [], books := [], orders := [(1, c6Order)],
    payments := [], nextID := 10, now := 0 }

theorem createPayment_spec_witness :
    createPayment c6DB 1 "cash" 999 = .error .amountMismatch ∧
      createPaymentStep c6DB 1 "cash" 999 = c6DB := by
  have h := createPayment_spec c6DB 1 "cash" 999
  have hmm := h.2.2.1 c6Order rfl rfl (by decide)
  exact ⟨hmm, h.2.2.2.1 ⟨.amountMismatch, hmm⟩⟩

theorem updatePaymentStatus_run (s : DB) (pid : Nat) (st : PaymentStatus) (payment : Payment)
    (hp : alookup s.payments pid = some payment) :
    (st ≠ .paid → updatePaymentStatus s pid st =
      .ok { s with payments := aupdate s.payments pid { payment with status := st } })
    ∧ (∀ ord, st = .paid → alookup s.orders payment.orderID = some ord →
        updatePaymentStatus s pid st =
          .ok { s with
                payments := aupdate s.payments pid
                  { payment with status := st, paidAt := some s.now },
                orders := aupdate s.orders payment.orderID
                  { ord with status := .completed } })
    ∧ (st = .paid → alookup s.orders payment.orderID = none →
        updatePaymentStatus s pid st = .error .orderUpdateFailed) := by
  refine ⟨?_, ?_, ?_⟩
  · intro hst
    rw [updatePaymentStatus, hp]
    dsimp only
    rw [if_neg hst, if_neg hst]
  · intro ord hst ho
    subst hst
    rw [updatePaymentStatus, hp]
    dsimp only
    rw [if_pos rfl, if_pos rfl, ho]
  · intro hst ho
    subst hst
    rw [updatePaymentStatus, hp]
    dsimp only
    rw [if_pos rfl, if_pos rfl, ho]

/-- C7: for an existing payment whose owning order exists, updating to `paid`
stamps paidAt with the current time and sets the owning order's status to
completed; updating to any other status leaves paidAt and the orders table
untouched. -/
theorem updatePaymentStatus_paid_semantics (s : DB) (pid : Nat) (st : PaymentStatus)
    (payment : Payment) (ord : Order)
    (hp : alookup s.payments pid = some payment)
    (ho : alookup s.orders payment.orderID = some ord) :
    (st = .paid → ∃ s', updatePaymentStatus s pid st = .ok s' ∧
      alookup s'.payments pid = some { payment with status := st, paidAt := some s.now } ∧
      alookup s'.orders payment.orderID = some { ord with status := .completed })
    ∧ (st ≠ .paid → ∃ s', updatePaymentStatus s pid st = .ok s' ∧
      alookup s'.payments pid = some { payment with status := st } ∧
      s'.orders = s.orders) := by
  obtain ⟨hrun1, hrun2, _⟩ := updatePaymentStatus_run s pid st payment hp
  constructor
  · intro hst
    subst hst
    refine ⟨{ s with
        payments := aupdate s.payments pid
          { payment with status := .paid, paidAt := some s.now },
        orders := aupdate s.orders payment.orderID
          { ord with status := .completed } }, ?_, ?_, ?_⟩
    · exact hrun2 ord rfl ho
    · exact alookup_aupdate_self _ hp
    · exact alookup_aupdate_self _ ho
  · intro hst
    refine ⟨{ s with
        payments := aupdate s.payments pid { payment with status := st } }, ?_, ?_, rfl⟩
    · exact hrun1 hst
    · exact alookup_aupdate_self _ hp

/-- A database with one completed-pending order owning one payment in status
failed. -/
def c7DB : DB :=
  { users := [], books := [],
    orders := [(1, { userID := 1, status := .pending, totalAmount := 500,
                     addressSnapshot := "a", phoneSnapshot := "p", books := [] })],
    payments := [(4, { orderID := 1, status := .failed, method := "card",
                       amount := 500, paidAt := none })],
    nextID := 10, now := 77 }

theorem updatePaymentStatus_paid_semantics_witness :
    (PaymentStatus.paid = .paid → ∃ s',
      updatePaymentStatus c7DB 4 PaymentStatus.paid = .ok s' ∧
      alookup s'.payments 4 = some { orderID := 1, status := .paid, method := "card",
                                     amount := 500, paidAt := some 77 } ∧
      alookup s'.orders 1 = some { userID := 1, status := .completed, totalAmount := 500,
                                   addressSnapshot := "a", phoneSnapshot := "p", books := [] })
    ∧ (PaymentStatus.paid ≠ .paid → ∃ s',
      updatePaymentStatus c7DB 4 PaymentStatus.paid = .ok s' ∧
      alookup s'.payments 4 = some { orderID := 1, status := .paid, method := "card",
                                     amount := 500, paidAt := none } ∧
      s'.orders = c7DB.orders) :=
  updatePaymentStatus_paid_semantics c7DB 4 PaymentStatus.paid
    { orderID := 1, status := .failed, method := "card", amount := 500, paidAt := none }
    { userID := 1, status := .pending, totalAmount := 500,
      addressSnapshot := "a", phoneSnapshot := "p", books := [] } rfl rfl

/-- C10: under the foreign-key invariant that every payment's orderID has an
order row, updatePaymentStatus fails exactly when the payment does not exist;
for every existing payment — whatever its current status — and every target
status the call succeeds and overwrites the status, and re-marking a failed
payment as paid stamps paidAt and completes the owning order. -/
theorem updatePaymentStatus_no_status_precondition (s : DB) (pid : Nat) (st : PaymentStatus)
    (hwf : ∀ e ∈ s.payments, (alookup s.orders e.2.orderID).isSome = true) :
    ((∃ e, updatePaymentStatus s pid st = .error e) ↔ alookup s.payments pid = none)
    ∧ (∀ payment, alookup s.payments pid = some payment →
        ∃ s', updatePaymentStatus s pid st = .ok s' ∧
          alookup s'.payments pid =
            some (if st = PaymentStatus.paid
                  then { payment with status := st, paidAt := some s.now }
                  else { payment with status := st }))
    ∧ (∀ payment, alookup s.payments pid = some payment →
        payment.status = .failed → st = .paid →
        ∃ s' ord, updatePaymentStatus s pid st = .ok s' ∧
          alookup s.orders payment.orderID = some ord ∧
          alookup s'.payments pid =
            some { payment with status := .paid, paidAt := some s.now } ∧
          alookup s'.orders payment.orderID = some { ord with status := .completed }) := by
  have hok : ∀ payment, alookup s.payments pid = some payment →
      ∃ s', updatePaymentStatus s pid st = .ok s' ∧
        alookup s'.payments pid =
          some (if st = PaymentStatus.paid
                then { payment with status := st, paidAt := some s.now }
                else { payment with status := st }) := by
    intro payment hp
    obtain ⟨hrun1, hrun2, _⟩ := updatePaymentStatus_run s pid st payment hp
    by_cases hst : st = PaymentStatus.paid
    · have hsome := hwf _ (alookup_mem hp)
      cases ho : alookup s.orders payment.orderID with
      | none => rw [ho] at hsome; exact absurd hsome (by simp)
      | some ord =>
        refine ⟨_, hrun2 ord hst ho, ?_⟩
        rw [if_pos hst]
        subst hst
        exact alookup_aupdate_self _ hp
    · refine ⟨_, hrun1 hst, ?_⟩
      rw [if_neg hst]
      exact alookup_aupdate_self _ hp
  refine ⟨⟨?_, ?_⟩, hok, ?_⟩
  · rintro ⟨e, he⟩
    cases hp : alookup s.payments pid with
    | none => rfl
    | some payment =>
      obtain ⟨s', hs', _⟩ := hok payment hp
      rw [hs'] at he
      exact absurd he (by simp)
  · intro hp
    refine ⟨.paymentNotFound, ?_⟩
    rw [updatePaymentStatus, hp]
  · intro payment hp hfailed hst
    subst hst
    obtain ⟨_, hrun2, _⟩ := updatePaymentStatus_run s pid PaymentStatus.paid payment hp
    have hsome := hwf _ (alookup_mem hp)
    cases ho : alookup s.orders payment.orderID with
    | none => rw [ho] at hsome; exact absurd hsome (by simp)
    | some ord =>
      refine ⟨_, ord, hrun2 ord rfl ho, rfl, ?_, ?_⟩
      · exact alookup_aupdate_self _ hp
      · exact alookup_aupdate_self _ ho

theorem updatePaymentStatus_no_status_precondition_witness :
    ((∃ e, updatePaymentStatus c7DB 4 PaymentStatus.paid = .error e) ↔
      alookup c7DB.payments 4 = none)
    ∧ (∀ payment, alookup c7DB.payments 4 = some payment →
        ∃ s', updatePaymentStatus c7DB 4 PaymentStatus.paid = .ok s' ∧
          alookup s'.payments 4 =
            some (if PaymentStatus.paid = PaymentStatus.paid
                  then { payment with status := PaymentStatus.paid, paidAt := some c7DB.now }
                  else { payment with status := PaymentStatus.paid }))
    ∧ (∀ payment, alookup c7DB.payments 4 = some payment →
        payment.status = .failed → PaymentStatus.paid = .paid →
        ∃ s' ord, updatePaymentStatus c7DB 4 PaymentStatus.paid = .ok s' ∧
          alookup c7DB.orders payment.orderID = some ord ∧
          alookup s'.payments 4 =
            some { payment with status := .paid, paidAt := some c7DB.now } ∧
          alookup s'.orders payment.orderID = some { ord with status := .completed }) :=
  updatePaymentStatus_no_status_precondition c7DB 4 PaymentStatus.paid (by decide)

/-- C8: addItemToCart fails with bookNotFound when the book does not exist and
with insufficientStock when the given quantity exceeds the book's stock;
otherwise an existing (cart, book) row is merged (quantities summed,
isSelected overwritten) and a missing one is inserted as a single new row, so
a table with at most one row per (cart, book) key keeps that property. -/
theorem addItemToCart_spec (s : CartDB) (userID bookID : Nat) (q : Int) (sel : Bool) :
    (alookup s.books bookID = none →
      addItemToCart s userID bookID q sel = .error .bookNotFound)
    ∧ (∀ book, alookup s.books bookID = some book → book.stockQuantity < q →
        addItemToCart s userID bookID q sel = .error .insufficientStock)
    ∧ (∀ cid book existing, findCartByUser s.carts userID = some cid →
        alookup s.books bookID = some book → ¬book.stockQuantity < q →
        alookup s.cartBooks (cid, bookID) = some existing →
        addItemToCart s userID bookID q sel =
          .ok { s with cartBooks := aupdate s.cartBooks (cid, bookID) ({ existing with quantity := existing.quantity + q, isSelected := sel }) })
    ∧ (∀ cid book, findCartByUser s.carts userID = some cid →
        alookup s.books bookID = some book → ¬book.stockQuantity < q →
        alookup s.cartBooks (cid, bookID) = none →
        addItemToCart s userID bookID q sel =
          .ok { s with cartBooks :=
                  ((cid, bookID), { quantity := q, isSelected := sel, addedAt := s.now })
                    :: s.cartBooks })
    ∧ (∀ s', addItemToCart s userID bookID q sel = .ok s' →
        (s.cartBooks.map Prod.fst).Nodup → (s'.cartBooks.map Prod.fst).Nodup) := by
  refine ⟨?_, ?_, ?_, ?_, ?_⟩
  · intro hb
    rw [addItemToCart]
    cases hfc : findCartByUser s.carts userID <;> simp [hfc, hb]
  · intro book hb hlt
    rw [addItemToCart]
    cases hfc : findCartByUser s.carts userID <;> simp [hfc, hb, hlt]
  · intro cid book existing hfc hb hstock hex
    rw [addItemToCart]
    simp only [hfc, hb]
    rw [if_neg hstock]
    simp only [hex]
  · intro cid book hfc hb hstock hex
    rw [addItemToCart]
    simp only [hfc, hb]
    rw [if_neg hstock]
    simp only [hex]
  · intro s' h hnd
    cases hfc : findCartByUser s.carts userID with
    | some cid =>
      rw [addItemToCart] at h
      simp only [hfc] at h
      split at h
      · exact absurd h (by simp)
      next book hb =>
        split at h
        · exact absurd h (by simp)
        next hstock =>
          split at h
          next existing hex =>
            injection h with h
            rw [← h]
            show ((aupdate s.cartBooks (cid, bookID) _).map Prod.fst).Nodup
            rw [keys_aupdate]
            exact hnd
          next hex =>
            injection h with h
            rw [← h]
            show (((cid, bookID) :: s.cartBooks.map Prod.fst)).Nodup
            refine List.nodup_cons.mpr ⟨?_, hnd⟩
            exact (alookup_eq_none_iff s.cartBooks (cid, bookID)).mp hex
    | none =>
      rw [addItemToCart] at h
      simp only [hfc] at h
      split at h
      · exact absurd h (by simp)
      next book hb =>
        split at h
        · exact absurd h (by simp)
        next hstock =>
          split at h
          next existing hex =>
            injection h with h
            rw [← h]
            show ((aupdate s.cartBooks (s.nextID, bookID) _).map Prod.fst).Nodup
            rw [keys_aupdate]
            exact hnd
          next hex =>
            injection h with h
            rw [← h]
            show (((s.nextID, bookID) :: s.cartBooks.map Prod.fst)).Nodup
            refine List.nodup_cons.mpr ⟨?_, hnd⟩
            exact (alookup_eq_none_iff s.cartBooks (s.nextID, bookID)).mp hex

/-- A cart database: user 7 owns cart 30 which already holds 2 copies of
book 1; book 1 has 10 in stock. -/
def c8DB : CartDB :=
  { carts := [(30, 7)],
    cartBooks := [((30, 1), { quantity := 2, isSelected := false, addedAt := 0 })],
    books := [(1, { price := 100, stockQuantity := 10, soldNumber := 0 })],
    nextID := 50, now := 3 }

theorem addItemToCart_spec_witness :
    addItemToCart c8DB 7 1 5 true =
      .ok { c8DB with cartBooks := aupdate c8DB.cartBooks (30, 1) ({ quantity := 2 + 5, isSelected := true, addedAt := 0 }) } :=
  (addItemToCart_spec c8DB 7 1 5 true).2.2.1 30
    { price := 100, stockQuantity := 10, soldNumber := 0 }
    { quantity := 2, isSelected := false, addedAt := 0 } rfl rfl (by decide) rfl

/-- C9: the stock check of addItemToCart compares only the quantity being
added against the book's stock, never the merged total: for every existing
cart item with quantity q0 and every added quantity q with 0 < q ≤ stock, the
call succeeds and stores q0 + q — even when q0 + q exceeds the stock. -/
theorem addItemToCart_ignores_merged_total (s : CartDB) (userID bookID : Nat) (q : Int)
    (sel : Bool) (cid : Nat) (book : Book) (existing : CartBook)
    (hfc : findCartByUser s.carts userID = some cid)
    (hb : alookup s.books bookID = some book)
    (hex : alookup s.cartBooks (cid, bookID) = some existing)
    (hq0 : 0 < q) (hq : q ≤ book.stockQuantity) :
    ∃ s', addItemToCart s userID bookID q sel = .ok s' ∧
      alookup s'.cartBooks (cid, bookID) =
        some { existing with quantity := existing.quantity + q, isSelected := sel } := by
  have hstock : ¬book.stockQuantity < q := not_lt.mpr hq
  refine ⟨{ s with cartBooks := aupdate s.cartBooks (cid, bookID) ({ existing with quantity := existing.quantity + q, isSelected := sel }) }, ?_, ?_⟩
  · rw [addItemToCart]
    simp only [hfc, hb]
    rw [if_neg hstock]
    simp only [hex]
  · exact alookup_aupdate_self _ hex

theorem addItemToCart_ignores_merged_total_witness :
    ((2 : Int) + 9 > 10)
    ∧ (∃ s', addItemToCart c8DB 7 1 9 true = .ok s' ∧
        alookup s'.cartBooks (30, 1) =
          some { quantity := 2 + 9, isSelected := true, addedAt := 0 }) :=
  ⟨by decide,
    addItemToCart_ignores_merged_total c8DB 7 1 9 true 30
      { price := 100, stockQuantity := 10, soldNumber := 0 }
      { quantity := 2, isSelected := false, addedAt := 0 }
      rfl rfl rfl (by decide) (by decide)⟩

/-- The empty authentication database. -/
def c5Init : AuthDB :=
  { auths := [], users := [], authors := [], admins := [], carts := [], nextID := 0 }

/-- A registration request with role `user`. -/
def c5Inp : RegisterInput :=
  { email := "alice@example.com", password := "s3cret", name := "Alice",
    phone := none, role := .user }

/-- C5: evidence against the claim as the code stands.  Registering a fresh
email with role `user` succeeds, a second registration with the same email is
rejected leaving exactly one Authentication row — but the Cart row written
inside the transaction carries a `userID` drawn from a different `uuidv4()`
call than the id of the User row `userFactory` inserted (through the global
client, outside the transaction): the created Cart's userID refers to no
existing User, so the Cart→User linkage the claim asserts does not hold. -/
theorem register_cart_not_linked :
    ∃ s' uid, register c5Init c5Inp = .ok (s', uid) ∧
      s'.auths.length = 1 ∧ s'.users.length = 1 ∧ s'.carts.length = 1 ∧
      (∀ e ∈ s'.carts, alookup s'.users e.2.userID = none) ∧
      (∀ c ∈ s'.carts, ∀ u ∈ s'.users, c.2.userID ≠ u.1) ∧
      register s' c5Inp = .error .emailExists := by
  refine ⟨_, 1, rfl, ?_, ?_, ?_, ?_, ?_, rfl⟩ <;> decide

end Bookstore
